import Mathlib

/-!
Shallow embedding of the request-notification reconciliation engine of
`src/cogs/mentor_requests.py` (class `RequestNotifier`), together with proofs
about the claims of the specification.

Modelling conventions:
* Python ints are `Int` (no overflow in CPython); Python float arithmetic on
  the small integral quantities appearing here (`1.5 * interval`,
  `mean(intervals) * 0.90`) is modelled exactly over `ℚ`, and Python's `int()`
  truncation toward zero is `pyInt`.
* Per-track mutable state (`request_interval[track]`, `request_timestamps[track]`,
  `request_sum_delay[track]`, `request_counts[track]`, `requests[track]`,
  `messages[track]`) is the structure `TrackData`; `messages = none` models
  `track not in self.messages`.
* Python dicts keyed by request id are association lists with unique keys in
  insertion order; Python set iteration order (used for `add_requests` /
  `del_requests`) is modelled as the underlying insertion order.
* Remote calls are oracles: the outcome of a Discord message delete is
  `DeleteOutcome` (`ok` or `notFound`, per the sink contract), a source fetch
  either yields the request list or times out (`Option`).
* `list.sort()` / `sorted(...)` are `List.insertionSort` with the matching
  relation (for integer keys any stable sort yields the same list).
-/

namespace MentorRequests

/-- `EXERCISM_TRACK_POLL_MIN_SECONDS = 5 * 60`. -/
def EXERCISM_TRACK_POLL_MIN_SECONDS : Int := 5 * 60

/-- `EXERCISM_TRACK_POLL_MAX_SECONDS = 30 * 60`. -/
def EXERCISM_TRACK_POLL_MAX_SECONDS : Int := 30 * 60

/-- `DISCORD_THREAD_POLL_SECONDS = 60 * 60`. -/
def DISCORD_THREAD_POLL_SECONDS : Int := 60 * 60

/-- Python's `int()` applied to a real value: truncation toward zero. -/
def pyInt (q : ℚ) : Int := if 0 ≤ q then ⌊q⌋ else ⌈q⌉

/-- `class TaskType(enum.IntEnum)`: the four task kinds, in declaration order. -/
inductive TaskType where
  | TASK_QUERY_EXERCISM
  | TASK_QUERY_DISCORD
  | TASK_DISCORD_ADD
  | TASK_DISCORD_DEL
deriving DecidableEq, Repr

/-- The `enum.auto()` integer values: 1, 2, 3, 4 in declaration order. -/
def TaskType.val : TaskType → Nat
  | .TASK_QUERY_EXERCISM => 1
  | .TASK_QUERY_DISCORD => 2
  | .TASK_DISCORD_ADD => 3
  | .TASK_DISCORD_DEL => 4

/-- One queue entry `(task_time, task_type, track, details)` of the
`asyncio.PriorityQueue[tuple[int, TaskType, str, str | None]]`. -/
structure QueuedTask where
  time : Int
  ttype : TaskType
  track : String
  details : Option String
deriving DecidableEq, Repr

/-- Comparison of the `details` component (`str | None`).  Python's tuple
comparison only reaches this component when the two `TaskType` values are
equal, and in every reachable queue the details are `None` exactly for the two
query task types, so the mixed `None`-vs-`str` case (a `TypeError` in Python)
is unreachable; it is mapped to `false` here.  `None` vs `None` compares equal,
hence not less-than. -/
def detailsLt : Option String → Option String → Bool
  | some a, some b => decide (a < b)
  | _, _ => false

/-- Python's lexicographic comparison of the queue tuples
`(task_time, task_type, track, details)`; `IntEnum` members compare by their
integer values. -/
def taskLt (a b : QueuedTask) : Bool :=
  decide (a.time < b.time) ||
    (decide (a.time = b.time) &&
      (decide (a.ttype.val < b.ttype.val) ||
        (decide (a.ttype.val = b.ttype.val) &&
          (decide (a.track < b.track) ||
            (decide (a.track = b.track) && detailsLt a.details b.details)))))

/-- `queue.get_nowait()` on the priority queue returns a minimal entry of the
heap (with the heap's fixed, deterministic handling of exact ties). -/
def nextTask : List QueuedTask → Option QueuedTask
  | [] => none
  | t :: ts => some (ts.foldl (fun best x => if taskLt x best then x else best) t)

/-- The per-track mutable state of `RequestNotifier`:
`request_interval[track]`, `request_timestamps[track]`,
`request_sum_delay[track]`, `request_counts[track]`, `requests[track]`
(request id → rendered message) and `messages[track]` (request id → Discord
message id; `none` models `track not in self.messages`). -/
structure TrackData where
  interval : Int
  timestamps : List Int
  sumDelay : Int
  counts : Int
  requests : List (String × String)
  messages : Option (List (String × Nat))
deriving DecidableEq, Repr

/-- Translation of `RequestNotifier.exercism_poll_interval`.  Returns the poll
interval together with the updated state: with fewer than two recorded
timestamps the stored interval grows to `min(int(1.5 * interval), MAX)` while
the pre-growth interval is returned; otherwise `times.sort()` sorts the stored
history ascending **in place** and the clamped scaled mean of the consecutive
deltas is returned. -/
def exercism_poll_interval (d : TrackData) : Int × TrackData :=
  let interval := d.interval
  let times := d.timestamps
  if times.length < 2 then
    let grown := min (pyInt ((3 / 2 : ℚ) * interval)) EXERCISM_TRACK_POLL_MAX_SECONDS
    (interval, { d with interval := grown })
  else
    let sorted := times.insertionSort (· ≤ ·)
    let intervals : List Int := (sorted.tail.zip sorted).map (fun ab => ab.1 - ab.2)
    (min
      (max (pyInt ((intervals.sum : ℚ) / intervals.length * (9 / 10 : ℚ)))
        EXERCISM_TRACK_POLL_MIN_SECONDS)
      EXERCISM_TRACK_POLL_MAX_SECONDS,
      { d with timestamps := sorted })

/-- `key in dict` for an association-list model of a Python dict. -/
def hasKey {α : Type} (l : List (String × α)) (k : String) : Bool :=
  l.any (fun p => p.1 == k)

/-- Translation of `RequestNotifier.fetch_track_requests` (state effects and
enqueued tasks).  `src` is the result of `get_requests(track)`: a dict
`request id → (timestamp, rendered message)` as an association list.  If
`track not in self.messages` the method returns at once having done nothing.
Otherwise it records the rendered requests, updates the arrival statistics and
the 15-entry newest-first history when new ids were seen, and enqueues one
`TASK_DISCORD_ADD` per new id and one `TASK_DISCORD_DEL` per vanished id
(capped at 10), all at due time 0. -/
def fetch_track_requests (track : String) (d : TrackData)
    (src : List (String × Int × String)) : TrackData × List QueuedTask :=
  match d.messages with
  | none => (d, [])
  | some msgs =>
    let add_requests := (src.map (·.1)).filter (fun i => !(hasKey msgs i))
    let del_requests := (msgs.map (·.1)).filter (fun i => !(hasKey src i))
    let d1 := { d with requests := src.map (fun p => (p.1, p.2.2)) }
    let d2 :=
      if add_requests.isEmpty then d1
      else
        let new_request_timestamps :=
          ((src.filter (fun p => !(hasKey msgs p.1))).map
            (fun p => p.2.1)).insertionSort (· ≥ ·)
        let prior_ts : List Int :=
          match d1.timestamps.max? with
          | some m => [m]
          | none => []
        { d1 with
          sumDelay := d1.sumDelay +
            ((new_request_timestamps.zip (new_request_timestamps.tail ++ prior_ts)).map
              (fun ab => ab.1 - ab.2)).sum
          counts := d1.counts + add_requests.length
          timestamps :=
            ((d1.timestamps ++ new_request_timestamps).insertionSort (· ≥ ·)).take 15 }
    let addTasks := add_requests.map
      (fun i => QueuedTask.mk 0 .TASK_DISCORD_ADD track (some i))
    let delTasks := (del_requests.take 10).map
      (fun i => QueuedTask.mk 0 .TASK_DISCORD_DEL track (some i))
    (d2, addTasks ++ delTasks)

/-- Translation of `RequestNotifier.queue_query_exercism`: compute the poll
interval (mutating the estimator state) and enqueue a `TASK_QUERY_EXERCISM`
task at `int(time.time()) + interval`. -/
def queue_query_exercism (now : Int) (track : String) (d : TrackData) :
    TrackData × QueuedTask :=
  let r := exercism_poll_interval d
  (r.2, QueuedTask.mk (now + r.1) .TASK_QUERY_EXERCISM track none)

/-- The `TASK_QUERY_EXERCISM` branch of the `task_manager` loop:
`try: await self.fetch_track_requests(track) except asyncio.TimeoutError:
logger.exception(...) finally: self.queue_query_exercism(track)`.
`fetched = none` models the source fetch raising `asyncio.TimeoutError`
(so no state effects and no add/del tasks); in both cases the `finally`
block re-enqueues exactly one poll task. -/
def handle_task_query_exercism (now : Int) (track : String) (d : TrackData)
    (fetched : Option (List (String × Int × String))) :
    TrackData × List QueuedTask :=
  let fr :=
    match fetched with
    | some src => fetch_track_requests track d src
    | none => (d, [])
  let q := queue_query_exercism now track fr.1
  (q.1, fr.2 ++ [q.2])

/-- Number of elements of Python's `range(0, stop, step)` for `step > 0`
(`⌈stop / step⌉`); for `step = 0` Python raises `ValueError`, modelled as an
empty range. -/
def pyRangeLen (stop step : Nat) : Nat := (stop + step - 1) / step

/-- Translation of `RequestNotifier.populate_task_queue`.  `shuffled` is
`self.tracks` after `random.shuffle`; the shuffle itself is modelled by
quantifying over the shuffled list.  Each track paired with an offset of
`range(0, 5 * 60, int(5 * 60 / len(tracks)))` gets a `TASK_QUERY_DISCORD`
task at `now + offset` and a `TASK_QUERY_EXERCISM` task at `now + offset + 1`.
(`len(tracks) = 0` raises `ZeroDivisionError` in Python; it is modelled as an
empty queue.) -/
def populate_task_queue (now : Int) (shuffled : List String) : List QueuedTask :=
  let step := 5 * 60 / shuffled.length
  let offsets := (List.range (pyRangeLen (5 * 60) step)).map (fun i => i * step)
  (shuffled.zip offsets).flatMap
    (fun p =>
      [QueuedTask.mk (now + p.2) .TASK_QUERY_DISCORD p.1 none,
       QueuedTask.mk (now + p.2 + 1) .TASK_QUERY_EXERCISM p.1 none])

/-- Result of `thread.get_partial_message(message_id).delete()`: the sink
either deletes the message or reports it already gone
(`discord.errors.NotFound`). -/
inductive DeleteOutcome where
  | ok
  | notFound
deriving DecidableEq, Repr

/-- Whether a call returned normally (with the updated per-track
`messages[track]` map) or let an exception escape. -/
inductive DelResult where
  | returned (messages : List (String × Nat))
  | raised
deriving DecidableEq, Repr

/-- `next((message_id for req, message_id in self.messages[track].items() if
req == request_id), None)`. -/
def lookupMessage (msgs : List (String × Nat)) (requestId : String) : Option Nat :=
  (msgs.find? (fun p => p.1 == requestId)).map (·.2)

/-- Translation of `RequestNotifier.update_discord_del` acting on
`self.messages[track]`.  If the lookup yields nothing falsy (`None`, or a 0
message id), return.  Otherwise delete the sink message: on success the
`del self.messages[track][request_id]` statement runs; on
`discord.errors.NotFound` the exception is swallowed and — because the `del`
sits after the failing call inside the `try` — the map entry is left in
place.  (The thread refresh and `unarchive` calls at the top of the method do
not touch the map.) -/
def update_discord_del (msgs : List (String × Nat)) (requestId : String)
    (outcome : DeleteOutcome) : DelResult :=
  match lookupMessage msgs requestId with
  | none => .returned msgs
  | some mid =>
    if mid = 0 then .returned msgs
    else
      match outcome with
      | .ok => .returned (msgs.eraseP (fun p => p.1 == requestId))
      | .notFound => .returned msgs

/-- Messages sent to or deleted from the sink thread, as observable events. -/
inductive SinkOp where
  | sendTransient
  | deleteTransient
  | sendPayload
deriving DecidableEq, Repr

/-- Translation of `RequestNotifier.unarchive`: if the thread is archived,
send one transient message and delete it; otherwise do nothing. -/
def unarchive (archived : Bool) : List SinkOp :=
  if archived then [SinkOp.sendTransient, SinkOp.deleteTransient] else []

/-- `self.messages[track][request_id] = message.id`: dict upsert. -/
def assocSet (msgs : List (String × Nat)) (k : String) (v : Nat) :
    List (String × Nat) :=
  if msgs.any (fun p => p.1 == k) then
    msgs.map (fun p => if p.1 == k then (k, v) else p)
  else
    msgs ++ [(k, v)]

/-- Translation of `RequestNotifier.update_discord_add` acting on
`self.messages[track]`: fetch the thread, send the rendered description
(`thread.send(...)`, the one sink write of the method — the method never
consults the thread's `archived` flag and never calls `unarchive`), and record
the resulting message id.  `newMessageId` is the id the sink assigns to the
sent message. -/
def update_discord_add (archived : Bool) (msgs : List (String × Nat))
    (requestId : String) (newMessageId : Nat) :
    List SinkOp × List (String × Nat) :=
  ([SinkOp.sendPayload], assocSet msgs requestId newMessageId)

/-- The per-track state seeded in `__init__`: `request_interval = 600`
("Default to 10 minute polling"), empty history, zero running statistics, no
cached requests, and no `messages[track]` entry yet. -/
def initialTrackData : TrackData :=
  { interval := 600, timestamps := [], sumDelay := 0, counts := 0,
    requests := [], messages := none }

/-- One scheduler-visible mutation of a track's state: an
`exercism_poll_interval` evaluation, a `fetch_track_requests` run with some
source response, or the `fetch_discord_thread` rebuild of `messages[track]`. -/
inductive TrackStep : TrackData → TrackData → Prop where
  | poll (d : TrackData) : TrackStep d (exercism_poll_interval d).2
  | fetch (track : String) (d : TrackData) (src : List (String × Int × String)) :
      TrackStep d (fetch_track_requests track d src).1
  | sinkPoll (d : TrackData) (msgs : List (String × Nat)) :
      TrackStep d { d with messages := some msgs }

/-- Track states reachable from the seeded state by any sequence of scheduler
operations. -/
def ReachableTrackData (d : TrackData) : Prop :=
  Relation.ReflTransGen TrackStep initialTrackData d

/-! ## Helper lemmas -/

/-- The consecutive deltas `[a - b for a, b in zip(l[1:], l)]` of a list. -/
def consecutiveDeltas (l : List Int) : List Int :=
  (l.tail.zip l).map (fun ab => ab.1 - ab.2)

/-- A `notFound` outcome never changes the mirrored-message map: every branch
of `update_discord_del` that sees `notFound` returns the input map. -/
theorem update_discord_del_notFound_eq (msgs : List (String × Nat))
    (requestId : String) :
    update_discord_del msgs requestId DeleteOutcome.notFound =
      DelResult.returned msgs := by
  unfold update_discord_del
  cases lookupMessage msgs requestId with
  | none => rfl
  | some mid =>
    by_cases h0 : mid = 0 <;> simp [h0]

/-- `update_discord_del` never lets an exception escape. -/
theorem update_discord_del_ne_raised (msgs : List (String × Nat))
    (requestId : String) (outcome : DeleteOutcome) :
    update_discord_del msgs requestId outcome ≠ DelResult.raised := by
  unfold update_discord_del
  cases lookupMessage msgs requestId with
  | none => simp
  | some mid =>
    by_cases h0 : mid = 0
    · simp [h0]
    · cases outcome <;> simp [h0]

/-- In the in-place-update branch of a dict upsert, the first entry carrying
the key has been replaced by `(k, v)`, so a lookup finds it. -/
theorem find_replaced_entry (k : String) (v : Nat) (msgs : List (String × Nat))
    (h : msgs.any (fun p => p.1 == k) = true) :
    (msgs.map (fun p => if p.1 == k then (k, v) else p)).find?
      (fun p => p.1 == k) = some (k, v) := by
  induction msgs with
  | nil => simp at h
  | cons p rest ih =>
    by_cases hp : p.1 == k
    · simp only [List.map_cons, if_pos hp]
      exact List.find?_cons_of_pos _ (by simp)
    · have hrest : rest.any (fun q => q.1 == k) = true := by
        simpa [hp] using h
      simp only [List.map_cons, if_neg hp]
      rw [List.find?_cons_of_neg]
      · exact ih hrest
      · exact hp

/-- A dict upsert makes the key map to the new value. -/
theorem lookupMessage_assocSet (msgs : List (String × Nat)) (k : String)
    (v : Nat) : lookupMessage (assocSet msgs k v) k = some v := by
  unfold assocSet lookupMessage
  by_cases h : msgs.any (fun p => p.1 == k)
  · rw [if_pos h, find_replaced_entry k v msgs h]
    rfl
  · have hnone : msgs.find? (fun p => p.1 == k) = none := by
      rw [List.find?_eq_none]
      intro x hx hxk
      exact h (List.any_eq_true.mpr ⟨x, hx, hxk⟩)
    simp [h, List.find?_append, hnone]

/-! ## Claims -/

/-- **C1** (code bug).  The claim — and the spec — say `update_discord_del`
removes the item's entry from the mirrored-message map whether the sink delete
succeeds or reports `NotFound`.  The code does not: `del
self.messages[track][request_id]` sits inside the `try` after the failing
`delete()` call, so on `NotFound` the exception is swallowed but the entry is
retained.  At the failing input (map `{"r1": 111}`, sink reports `NotFound`)
the entry survives; on a successful delete it is removed; with no entry the
call is a no-op.  No exception escapes in either case. -/
theorem update_discord_del_notFound_keeps_mirrored_entry :
    update_discord_del [("r1", 111)] "r1" DeleteOutcome.notFound =
        DelResult.returned [("r1", 111)] ∧
      update_discord_del [("r1", 111)] "r1" DeleteOutcome.ok =
        DelResult.returned [] ∧
      update_discord_del [] "r1" DeleteOutcome.notFound =
        DelResult.returned [] := by
  decide

/-- **C9** (confirmed).  Deleting an already-deleted id is idempotent: the
first `update_discord_del` call returns normally with some map `m1` (it never
raises), and a second call for the same id — whose sink message is now gone,
so the sink reports `NotFound` — returns `m1` unchanged and does not raise. -/
theorem update_discord_del_idempotent (msgs : List (String × Nat))
    (requestId : String) (outcome : DeleteOutcome) :
    ∃ m1, update_discord_del msgs requestId outcome = DelResult.returned m1 ∧
      update_discord_del m1 requestId DeleteOutcome.notFound =
        DelResult.returned m1 := by
  cases hres : update_discord_del msgs requestId outcome with
  | returned m1 => exact ⟨m1, rfl, update_discord_del_notFound_eq m1 requestId⟩
  | raised => exact absurd hres (update_discord_del_ne_raised msgs requestId outcome)

/-- **C2** (counterexample).  The claim says `update_discord_add` un-archives
the thread first when it is archived, creating and deleting exactly one
transient message before the payload.  On an archived thread the method's sink
trace is the single payload send: it creates zero transient messages, so the
claim is false. -/
theorem update_discord_add_archived_no_transient_message :
    ¬ ((update_discord_add true [] "r1" 555).1.count SinkOp.sendTransient = 1) ∧
      (update_discord_add true [] "r1" 555).1 = [SinkOp.sendPayload] := by
  decide

/-- **C2** (amended).  `update_discord_add` never un-archives: for every
archived state it sends exactly the payload message (no transient message) and
records the resulting sink message id in the mirrored-message map; the
un-archive protocol (one transient message created then deleted) lives in
`unarchive`, which is invoked by `update_discord_del` and the Discord thread
poll, not by `update_discord_add`. -/
theorem update_discord_add_posts_payload_directly (archived : Bool)
    (msgs : List (String × Nat)) (requestId : String) (newMessageId : Nat) :
    (update_discord_add archived msgs requestId newMessageId).1 =
        [SinkOp.sendPayload] ∧
      (update_discord_add archived msgs requestId newMessageId).2 =
        assocSet msgs requestId newMessageId ∧
      lookupMessage (update_discord_add archived msgs requestId newMessageId).2
          requestId = some newMessageId ∧
      unarchive true = [SinkOp.sendTransient, SinkOp.deleteTransient] ∧
      unarchive false = [] :=
  ⟨rfl, rfl, lookupMessage_assocSet msgs requestId newMessageId, rfl, rfl⟩

/-- **C7** (confirmed).  Queue ordering is lexicographic on
`(due_time, task_kind, category, detail)` with the kind values
`TASK_QUERY_EXERCISM (1) < TASK_QUERY_DISCORD (2) < TASK_DISCORD_ADD (3) <
TASK_DISCORD_DEL (4)`; for two tasks with equal due time and kinds
`TASK_DISCORD_ADD` and `TASK_QUERY_EXERCISM`, the query task is strictly
smaller and is dequeued first from either insertion order — deterministic
tie-breaking by kind. -/
theorem task_queue_lexicographic_order (time : Int) (c1 c2 d1 : String) :
    taskLt (QueuedTask.mk time .TASK_QUERY_EXERCISM c2 none)
        (QueuedTask.mk time .TASK_DISCORD_ADD c1 (some d1)) = true ∧
      taskLt (QueuedTask.mk time .TASK_DISCORD_ADD c1 (some d1))
        (QueuedTask.mk time .TASK_QUERY_EXERCISM c2 none) = false ∧
      nextTask [QueuedTask.mk time .TASK_DISCORD_ADD c1 (some d1),
          QueuedTask.mk time .TASK_QUERY_EXERCISM c2 none] =
        some (QueuedTask.mk time .TASK_QUERY_EXERCISM c2 none) ∧
      nextTask [QueuedTask.mk time .TASK_QUERY_EXERCISM c2 none,
          QueuedTask.mk time .TASK_DISCORD_ADD c1 (some d1)] =
        some (QueuedTask.mk time .TASK_QUERY_EXERCISM c2 none) ∧
      TaskType.TASK_QUERY_EXERCISM.val < TaskType.TASK_QUERY_DISCORD.val ∧
      TaskType.TASK_QUERY_DISCORD.val < TaskType.TASK_DISCORD_ADD.val ∧
      TaskType.TASK_DISCORD_ADD.val < TaskType.TASK_DISCORD_DEL.val := by
  simp [taskLt, detailsLt, TaskType.val, nextTask]

/-- **C3** (confirmed).  With at least 2 recorded samples, the returned delay
is the arithmetic mean of the consecutive deltas of the ascending-sorted
timestamps, multiplied by 0.90, truncated to an integer, and clamped to
[300, 1800] seconds.  `ts` is the ascending sort of the stored history,
characterised abstractly as any sorted permutation of it. -/
theorem exercism_poll_interval_mean_delta_formula (d : TrackData)
    (ts : List Int) (hlen : 2 ≤ d.timestamps.length)
    (hperm : List.Perm d.timestamps ts) (hsort : List.Sorted (· ≤ ·) ts) :
    (exercism_poll_interval d).1 =
      min
        (max
          (pyInt (((consecutiveDeltas ts).sum : ℚ) /
            ((consecutiveDeltas ts).length : ℚ) * (9 / 10 : ℚ)))
          300)
        1800 := by
  have hsorted_eq : d.timestamps.insertionSort (· ≤ ·) = ts :=
    List.eq_of_perm_of_sorted ((List.perm_insertionSort _ _).trans hperm)
      (List.sorted_insertionSort _ _) hsort
  unfold exercism_poll_interval
  rw [if_neg (by omega)]
  rw [hsorted_eq]
  norm_num [consecutiveDeltas, EXERCISM_TRACK_POLL_MIN_SECONDS,
    EXERCISM_TRACK_POLL_MAX_SECONDS]

/-- **C3** witness: for stored history [100, 130, 160] (deltas 30, 30) the
returned delay is 300, clamped up from `int(30 * 0.90) = 27`. -/
theorem exercism_poll_interval_mean_delta_formula_witness :
    (exercism_poll_interval
      { interval := 600, timestamps := [100, 130, 160], sumDelay := 0,
        counts := 0, requests := [], messages := none }).1 = 300 := by
  have h := exercism_poll_interval_mean_delta_formula
    { interval := 600, timestamps := [100, 130, 160], sumDelay := 0,
      counts := 0, requests := [], messages := none }
    [100, 130, 160] (by norm_num) (List.Perm.refl _) (by decide)
  have hd : consecutiveDeltas [100, 130, 160] = [30, 30] := by decide
  rw [h, hd]
  norm_num [pyInt, Int.floor_ofNat]

/-- **C4** (confirmed).  With fewer than 2 samples, `exercism_poll_interval`
returns the current stored interval, replaces the stored interval with
`min(⌊1.5 ⬝ interval⌋, 1800)`, leaves the history untouched, and the grown
value is what a subsequent call returns. -/
theorem exercism_poll_interval_growth_on_sparse_history (d : TrackData)
    (hlen : d.timestamps.length < 2) (hpos : 0 ≤ d.interval) :
    (exercism_poll_interval d).1 = d.interval ∧
      (exercism_poll_interval d).2.interval =
        min ⌊(3 / 2 : ℚ) * (d.interval : ℚ)⌋ 1800 ∧
      (exercism_poll_interval d).2.timestamps = d.timestamps ∧
      (exercism_poll_interval (exercism_poll_interval d).2).1 =
        min ⌊(3 / 2 : ℚ) * (d.interval : ℚ)⌋ 1800 := by
  have hpy : pyInt ((3 / 2 : ℚ) * (d.interval : ℚ)) =
      ⌊(3 / 2 : ℚ) * (d.interval : ℚ)⌋ := by
    unfold pyInt
    rw [if_pos]
    exact mul_nonneg (by norm_num) (by exact_mod_cast hpos)
  have hfst : (exercism_poll_interval d).1 = d.interval := by
    unfold exercism_poll_interval
    rw [if_pos hlen]
  have hsnd : (exercism_poll_interval d).2 =
      { d with interval := min ⌊(3 / 2 : ℚ) * (d.interval : ℚ)⌋ 1800 } := by
    unfold exercism_poll_interval
    rw [if_pos hlen]
    rw [hpy]
    rfl
  refine ⟨hfst, by rw [hsnd], by rw [hsnd], ?_⟩
  rw [hsnd]
  unfold exercism_poll_interval
  rw [if_pos hlen]

/-- **C4** witness: with single-element history [42] and stored interval 600
the call returns 600, stores `min(int(1.5 * 600), 1800) = 900`, and the next
call returns 900. -/
theorem exercism_poll_interval_growth_on_sparse_history_witness :
    (exercism_poll_interval
        { interval := 600, timestamps := [42], sumDelay := 0, counts := 0,
          requests := [], messages := none }).1 = 600 ∧
      (exercism_poll_interval
        { interval := 600, timestamps := [42], sumDelay := 0, counts := 0,
          requests := [], messages := none }).2.interval = 900 ∧
      (exercism_poll_interval (exercism_poll_interval
        { interval := 600, timestamps := [42], sumDelay := 0, counts := 0,
          requests := [], messages := none }).2).1 = 900 := by
  have h := exercism_poll_interval_growth_on_sparse_history
    { interval := 600, timestamps := [42], sumDelay := 0, counts := 0,
      requests := [], messages := none } (by decide) (by decide)
  obtain ⟨h1, h2, h3, h4⟩ := h
  refine ⟨h1, ?_, ?_⟩
  · rw [h2]
    norm_num
  · rw [h4]
    norm_num

/-- `fetch_track_requests` never touches the stored poll interval. -/
theorem fetch_track_requests_interval (track : String) (d : TrackData)
    (src : List (String × Int × String)) :
    (fetch_track_requests track d src).1.interval = d.interval := by
  unfold fetch_track_requests
  rcases hdm : d.messages with _ | msgs
  · rfl
  · dsimp only
    split
    · rfl
    · rfl

/-- The clamp `min (max x MIN) MAX` of the ≥2-samples branch lands in
[300, 1800]. -/
theorem clamp_mem_bounds (x : Int) :
    300 ≤ min (max x EXERCISM_TRACK_POLL_MIN_SECONDS)
        EXERCISM_TRACK_POLL_MAX_SECONDS ∧
      min (max x EXERCISM_TRACK_POLL_MIN_SECONDS)
        EXERCISM_TRACK_POLL_MAX_SECONDS ≤ 1800 := by
  unfold EXERCISM_TRACK_POLL_MIN_SECONDS EXERCISM_TRACK_POLL_MAX_SECONDS
  constructor <;> omega

/-- One `exercism_poll_interval` call keeps the stored interval inside
[300, 1800]. -/
theorem poll_grows_within_bounds (d : TrackData) (h1 : 300 ≤ d.interval)
    (h2 : d.interval ≤ 1800) :
    300 ≤ (exercism_poll_interval d).2.interval ∧
      (exercism_poll_interval d).2.interval ≤ 1800 := by
  unfold exercism_poll_interval
  dsimp only
  by_cases hlen : d.timestamps.length < 2
  · rw [if_pos hlen]
    dsimp only
    constructor
    · refine le_min ?_ (by norm_num [EXERCISM_TRACK_POLL_MAX_SECONDS])
      have hq : (0 : ℚ) ≤ (3 / 2 : ℚ) * (d.interval : ℚ) := by
        have : (0 : ℚ) ≤ (d.interval : ℚ) := by
          exact_mod_cast le_trans (by norm_num) h1
        nlinarith
      rw [pyInt, if_pos hq, Int.le_floor]
      have hc : (300 : ℚ) ≤ (d.interval : ℚ) := by exact_mod_cast h1
      nlinarith
    · exact le_trans (min_le_right _ _)
        (by norm_num [EXERCISM_TRACK_POLL_MAX_SECONDS])
  · rw [if_neg hlen]
    exact ⟨h1, h2⟩

/-- **C5** (confirmed).  From the seeded 600-second default, under any
sequence of scheduler operations (`exercism_poll_interval` calls,
`fetch_track_requests` runs, Discord thread rebuilds), the stored poll
interval stays in [300, 1800] seconds, and every delay
`exercism_poll_interval` returns lies in [300, 1800] — including for
histories with zero or one samples. -/
theorem poll_interval_reachable_bounds (d : TrackData)
    (h : ReachableTrackData d) :
    (300 ≤ d.interval ∧ d.interval ≤ 1800) ∧
      300 ≤ (exercism_poll_interval d).1 ∧
      (exercism_poll_interval d).1 ≤ 1800 := by
  have inv : 300 ≤ d.interval ∧ d.interval ≤ 1800 := by
    induction h with
    | refl => constructor <;> norm_num [initialTrackData]
    | tail hr step ih =>
      cases step with
      | poll => exact poll_grows_within_bounds _ ih.1 ih.2
      | fetch track src =>
        rw [fetch_track_requests_interval]
        exact ih
      | sinkPoll msgs => exact ih
  refine ⟨inv, ?_⟩
  unfold exercism_poll_interval
  dsimp only
  by_cases hlen : d.timestamps.length < 2
  · rw [if_pos hlen]
    exact inv
  · rw [if_neg hlen]
    exact clamp_mem_bounds _

/-- **C5** witness: the seeded state is reachable, its interval 600 lies in
[300, 1800], and the first returned delay (600) does too. -/
theorem poll_interval_reachable_bounds_witness :
    (300 ≤ initialTrackData.interval ∧ initialTrackData.interval ≤ 1800) ∧
      300 ≤ (exercism_poll_interval initialTrackData).1 ∧
      (exercism_poll_interval initialTrackData).1 ≤ 1800 :=
  poll_interval_reachable_bounds initialTrackData Relation.ReflTransGen.refl

/-- A track state whose 3-element history is ordered newest first, as
`fetch_track_requests` stores it. -/
def newestFirstTrackData : TrackData :=
  { interval := 600, timestamps := [160, 130, 100], sumDelay := 0,
    counts := 0, requests := [], messages := none }

/-- `newestFirstTrackData` with an (empty) mirrored-message map, so that
`fetch_track_requests` proceeds past its early-return guard. -/
def newestFirstTrackDataWithThread : TrackData :=
  { newestFirstTrackData with messages := some [] }

/-- **C6** (counterexample).  The claim says the newest-first ordering of a
category's history is preserved by every operation, including the delay
computation.  Starting from the newest-first 3-element history
[160, 130, 100], `exercism_poll_interval` (≥2 samples) sorts the stored
history ascending in place, leaving [100, 130, 160] — not newest first. -/
theorem exercism_poll_interval_breaks_newest_first :
    List.Sorted (· ≥ ·) newestFirstTrackData.timestamps ∧
      2 ≤ newestFirstTrackData.timestamps.length ∧
      (exercism_poll_interval newestFirstTrackData).2.timestamps =
        [100, 130, 160] ∧
      ¬ List.Sorted (· ≥ ·)
        (exercism_poll_interval newestFirstTrackData).2.timestamps := by
  decide

/-- After `fetch_track_requests` the history is bounded by 15 entries and is
either untouched or freshly sorted newest-first. -/
theorem fetch_track_requests_timestamps (track : String) (d : TrackData)
    (src : List (String × Int × String)) (h : d.timestamps.length ≤ 15) :
    (fetch_track_requests track d src).1.timestamps.length ≤ 15 ∧
      ((fetch_track_requests track d src).1.timestamps = d.timestamps ∨
        List.Sorted (· ≥ ·) (fetch_track_requests track d src).1.timestamps) := by
  unfold fetch_track_requests
  rcases hdm : d.messages with _ | msgs
  · exact ⟨h, Or.inl rfl⟩
  · dsimp only
    split
    · exact ⟨h, Or.inl rfl⟩
    · dsimp only
      constructor
      · exact le_trans (List.length_take_le _ _) (by norm_num)
      · refine Or.inr ?_
        exact List.Pairwise.sublist (List.take_sublist _ _)
          (List.sorted_insertionSort _ _)

/-- After `exercism_poll_interval` the history is length-preserved and is
either untouched (<2 samples) or sorted ascending (≥2 samples). -/
theorem exercism_poll_interval_timestamps (d : TrackData)
    (h : d.timestamps.length ≤ 15) :
    (exercism_poll_interval d).2.timestamps.length ≤ 15 ∧
      ((exercism_poll_interval d).2.timestamps = d.timestamps ∨
        List.Sorted (· ≤ ·) (exercism_poll_interval d).2.timestamps) := by
  unfold exercism_poll_interval
  dsimp only
  by_cases hlen : d.timestamps.length < 2
  · rw [if_pos hlen]
    exact ⟨h, Or.inl rfl⟩
  · rw [if_neg hlen]
    dsimp only
    constructor
    · rw [(List.perm_insertionSort _ _).length_eq]
      exact h
    · exact Or.inr (List.sorted_insertionSort _ _)

/-- **C6** (amended).  The 15-entry bound on a category's history is
preserved by both operations that touch it, and `fetch_track_requests`
leaves the history either untouched or newest-first; but
`exercism_poll_interval` leaves it either untouched or sorted *ascending*
(oldest first) — its in-place `times.sort()` destroys the newest-first order
whenever the history has ≥2 samples, until the next arrival update restores
it. -/
theorem history_bound_and_ordering (track : String) (d : TrackData)
    (src : List (String × Int × String)) (h : d.timestamps.length ≤ 15) :
    ((fetch_track_requests track d src).1.timestamps.length ≤ 15 ∧
      ((fetch_track_requests track d src).1.timestamps = d.timestamps ∨
        List.Sorted (· ≥ ·) (fetch_track_requests track d src).1.timestamps)) ∧
      ((exercism_poll_interval d).2.timestamps.length ≤ 15 ∧
        ((exercism_poll_interval d).2.timestamps = d.timestamps ∨
          List.Sorted (· ≤ ·) (exercism_poll_interval d).2.timestamps)) :=
  ⟨fetch_track_requests_timestamps track d src h,
    exercism_poll_interval_timestamps d h⟩

/-- **C6** witness: the amended invariant evaluated at the 3-element
newest-first history [160, 130, 100] with one fresh arrival. -/
theorem history_bound_and_ordering_witness :
    ((fetch_track_requests "python" newestFirstTrackDataWithThread
        [("r9", 200, "msg")]).1.timestamps.length ≤ 15 ∧
      ((fetch_track_requests "python" newestFirstTrackDataWithThread
          [("r9", 200, "msg")]).1.timestamps =
          newestFirstTrackDataWithThread.timestamps ∨
        List.Sorted (· ≥ ·) (fetch_track_requests "python"
          newestFirstTrackDataWithThread [("r9", 200, "msg")]).1.timestamps)) ∧
      ((exercism_poll_interval
          newestFirstTrackDataWithThread).2.timestamps.length ≤ 15 ∧
        ((exercism_poll_interval newestFirstTrackDataWithThread).2.timestamps =
            newestFirstTrackDataWithThread.timestamps ∨
          List.Sorted (· ≤ ·) (exercism_poll_interval
            newestFirstTrackDataWithThread).2.timestamps)) :=
  history_bound_and_ordering "python" newestFirstTrackDataWithThread
    [("r9", 200, "msg")] (by decide)

/-- Every task `fetch_track_requests` enqueues is a Discord add or delete —
never a poll task. -/
theorem fetch_track_requests_task_kinds (track : String) (d : TrackData)
    (src : List (String × Int × String)) :
    ∀ t ∈ (fetch_track_requests track d src).2,
      t.ttype = TaskType.TASK_DISCORD_ADD ∨
        t.ttype = TaskType.TASK_DISCORD_DEL := by
  intro t ht
  unfold fetch_track_requests at ht
  rcases hdm : d.messages with _ | msgs <;> rw [hdm] at ht
  · simp at ht
  · dsimp only at ht
    rw [List.mem_append] at ht
    rcases ht with ht | ht <;> rcases List.mem_map.mp ht with ⟨i, hi, rfl⟩
    · exact Or.inl rfl
    · exact Or.inr rfl

/-- **C8** (confirmed).  A `TASK_QUERY_EXERCISM` dispatch enqueues exactly one
new `TASK_QUERY_EXERCISM` task for the track, due at
`now + exercism_poll_interval` of the post-fetch state — both when the source
fetch completes normally (`fetched = some src`) and when it raises
`asyncio.TimeoutError` (`fetched = none`, logged): the `finally` block always
runs and nothing else re-enqueues a source poll. -/
theorem poll_source_reenqueues_exactly_one (now : Int) (track : String)
    (d : TrackData) (fetched : Option (List (String × Int × String))) :
    (handle_task_query_exercism now track d fetched).2.filter
        (fun t => t.ttype == TaskType.TASK_QUERY_EXERCISM) =
      [QueuedTask.mk
        (now + (exercism_poll_interval
          (match fetched with
           | some src => (fetch_track_requests track d src).1
           | none => d)).1)
        TaskType.TASK_QUERY_EXERCISM track none] := by
  cases fetched with
  | none => simp [handle_task_query_exercism, queue_query_exercism]
  | some src =>
    have hnil : (fetch_track_requests track d src).2.filter
        (fun t => t.ttype == TaskType.TASK_QUERY_EXERCISM) = [] := by
      rw [List.filter_eq_nil_iff]
      intro t ht
      rcases fetch_track_requests_task_kinds track d src t ht with h | h <;>
        simp [h]
    simp [handle_task_query_exercism, queue_query_exercism,
      List.filter_append, hnil]

/-- Each index of the shuffled track list gets its pair of bootstrap tasks:
`TASK_QUERY_DISCORD` at `now + offset` and `TASK_QUERY_EXERCISM` one second
later, with offset `i * int(5 * 60 / len(tracks))`. -/
theorem populate_task_queue_mem (now : Int) (shuffled : List String) (i : Nat)
    (hi : i < shuffled.length) (hn : shuffled.length ≤ 300) :
    QueuedTask.mk (now + (i * (5 * 60 / shuffled.length) : Nat))
        TaskType.TASK_QUERY_DISCORD shuffled[i] none ∈
      populate_task_queue now shuffled ∧
    QueuedTask.mk (now + (i * (5 * 60 / shuffled.length) : Nat) + 1)
        TaskType.TASK_QUERY_EXERCISM shuffled[i] none ∈
      populate_task_queue now shuffled := by
  have hn0 : 0 < shuffled.length := lt_of_le_of_lt (Nat.zero_le i) hi
  have hstep : 0 < 5 * 60 / shuffled.length := Nat.div_pos hn hn0
  have hcount : shuffled.length ≤
      pyRangeLen (5 * 60) (5 * 60 / shuffled.length) := by
    unfold pyRangeLen
    rw [Nat.le_div_iff_mul_le hstep]
    have hmul : shuffled.length * (5 * 60 / shuffled.length) ≤ 5 * 60 := by
      rw [Nat.mul_comm]
      exact Nat.div_mul_le_self (5 * 60) shuffled.length
    exact le_trans hmul (by omega)
  have hoffs : i < ((List.range (pyRangeLen (5 * 60)
      (5 * 60 / shuffled.length))).map
        (fun j => j * (5 * 60 / shuffled.length))).length := by
    simpa using lt_of_lt_of_le hi hcount
  have hzip : i < (shuffled.zip ((List.range (pyRangeLen (5 * 60)
      (5 * 60 / shuffled.length))).map
        (fun j => j * (5 * 60 / shuffled.length)))).length := by
    rw [List.length_zip]
    omega
  have hpair : (shuffled.zip ((List.range (pyRangeLen (5 * 60)
      (5 * 60 / shuffled.length))).map
        (fun j => j * (5 * 60 / shuffled.length))))[i] =
      (shuffled[i], i * (5 * 60 / shuffled.length)) := by
    rw [List.getElem_zip]
    simp
  have hmem : (shuffled[i], i * (5 * 60 / shuffled.length)) ∈
      shuffled.zip ((List.range (pyRangeLen (5 * 60)
        (5 * 60 / shuffled.length))).map
          (fun j => j * (5 * 60 / shuffled.length))) := by
    rw [← hpair]
    exact List.getElem_mem hzip
  constructor <;>
    · unfold populate_task_queue
      refine List.mem_flatMap.mpr
        ⟨(shuffled[i], i * (5 * 60 / shuffled.length)), hmem, ?_⟩
      simp

/-- **C10** (confirmed).  Before the first completed Discord scan for a track
(`track not in self.messages`), a source-poll execution does nothing: no
fetch effects, no statistics updates, no add/delete tasks — the dispatch
enqueues exactly its own follow-up poll task.  The bootstrap supports this by
seeding each track's `TASK_QUERY_DISCORD` task one second before its
`TASK_QUERY_EXERCISM` task. -/
theorem poll_source_before_first_sink_scan_noop (track : String)
    (d : TrackData) (src : List (String × Int × String)) (now : Int)
    (shuffled : List String) (i : Nat) (hmsg : d.messages = none)
    (hi : i < shuffled.length) (hn : shuffled.length ≤ 300) :
    fetch_track_requests track d src = (d, []) ∧
      (handle_task_query_exercism now track d (some src)).2 =
        [QueuedTask.mk (now + (exercism_poll_interval d).1)
          TaskType.TASK_QUERY_EXERCISM track none] ∧
      QueuedTask.mk (now + (i * (5 * 60 / shuffled.length) : Nat))
          TaskType.TASK_QUERY_DISCORD shuffled[i] none ∈
        populate_task_queue now shuffled ∧
      QueuedTask.mk (now + (i * (5 * 60 / shuffled.length) : Nat) + 1)
          TaskType.TASK_QUERY_EXERCISM shuffled[i] none ∈
        populate_task_queue now shuffled := by
  have hfetch : fetch_track_requests track d src = (d, []) := by
    unfold fetch_track_requests
    rw [hmsg]
  have hhandle : (handle_task_query_exercism now track d (some src)).2 =
      [QueuedTask.mk (now + (exercism_poll_interval d).1)
        TaskType.TASK_QUERY_EXERCISM track none] := by
    unfold handle_task_query_exercism queue_query_exercism
    dsimp only
    rw [hfetch]
    rfl
  obtain ⟨hm1, hm2⟩ := populate_task_queue_mem now shuffled i hi hn
  exact ⟨hfetch, hhandle, hm1, hm2⟩

/-- **C10** witness: with two tracks, the seeded state, and an empty source
response, the no-op and the 1-second bootstrap stagger hold concretely. -/
theorem poll_source_before_first_sink_scan_noop_witness :
    fetch_track_requests "t" initialTrackData [] = (initialTrackData, []) ∧
      (handle_task_query_exercism 0 "t" initialTrackData (some [])).2 =
        [QueuedTask.mk (0 + (exercism_poll_interval initialTrackData).1)
          TaskType.TASK_QUERY_EXERCISM "t" none] ∧
      QueuedTask.mk (0 + (0 * (5 * 60 / (["a", "b"] : List String).length) : Nat))
          TaskType.TASK_QUERY_DISCORD (["a", "b"] : List String)[0] none ∈
        populate_task_queue 0 ["a", "b"] ∧
      QueuedTask.mk (0 + (0 * (5 * 60 / (["a", "b"] : List String).length) : Nat) + 1)
          TaskType.TASK_QUERY_EXERCISM (["a", "b"] : List String)[0] none ∈
        populate_task_queue 0 ["a", "b"] :=
  poll_source_before_first_sink_scan_noop "t" initialTrackData [] 0
    ["a", "b"] 0 rfl (by decide) (by decide)

end MentorRequests
